import Mathlib

set_option autoImplicit false

namespace ECat

/-!
Shallow embedding of the EtherCAT PDO discovery, layout building, offset
resolution and layout validation code of this repository: the dynamic
liveviewer sources (SDO helpers, assign and mapping readers, sync-manager
and registration builders, the SM3 base computation), the v3 field
resolver with its per-byte domain offsets, and the cfgdiag validation
block.  Machine integers are modelled as Nat with explicit reductions
where the C types truncate; byte buffers are lists of Nat holding byte
values; fallible reads return Except or Option.
-/

/-- Decidable equality for Except results, used to evaluate the embedded
reads on concrete devices. -/
instance exceptDecEq {ε α : Type} [DecidableEq ε] [DecidableEq α] :
    DecidableEq (Except ε α) := fun x y =>
  match x, y with
  | Except.ok a, Except.ok b =>
    if h : a = b then isTrue (by rw [h])
    else isFalse (fun hc => by cases hc; exact h rfl)
  | Except.error a, Except.error b =>
    if h : a = b then isTrue (by rw [h])
    else isFalse (fun hc => by cases hc; exact h rfl)
  | Except.ok _, Except.error _ => isFalse (fun hc => by cases hc)
  | Except.error _, Except.ok _ => isFalse (fun hc => by cases hc)

/-! ## Binary decoding layer -/

/-- Little-endian value of a byte list; each cell models a uint8_t, hence
the reduction mod 256. -/
def leVal (bs : List Nat) : Nat :=
  bs.foldr (fun b acc => b % 256 + 256 * acc) 0

/-- Pure decode step of sdo_u8_any: the helper accepts raw sizes 1, 2 and 4
for count fields and returns the first buffer byte; any other size falls
through to the error return. -/
def decode_u8_any (raw : List Nat) : Option Nat :=
  if raw.length = 1 then some (raw.getD 0 0 % 256)
  else if raw.length = 2 then some (raw.getD 0 0 % 256)
  else if raw.length = 4 then some (raw.getD 0 0 % 256)
  else none

/-- Pure decode step of sdo_u16_any: accepts raw sizes 2, 4 and 8 and
returns the value of the two low bytes, little-endian. -/
def decode_u16_any (raw : List Nat) : Option Nat :=
  if raw.length = 2 ∨ raw.length = 4 ∨ raw.length = 8 then
    some (raw.getD 0 0 % 256 + 256 * (raw.getD 1 0 % 256))
  else none

/-- Pure decode step of sdo_u32_exact: requires exactly 4 raw bytes and
assembles them little-endian. -/
def decode_u32_exact (raw : List Nat) : Option Nat :=
  if raw.length = 4 then
    some (raw.getD 0 0 % 256 + 256 * (raw.getD 1 0 % 256)
      + 65536 * (raw.getD 2 0 % 256) + 16777216 * (raw.getD 3 0 % 256))
  else none

/-! ## Device model and SDO read wrappers -/

/-- Abstract slave device: the raw mailbox payload answered for a
dictionary read of (index, subindex); none models a failed transport
read (nonzero rc from the upload call). -/
def Device : Type := Nat → Nat → Option (List Nat)

/-- Error outcomes of the discovery reads, one constructor per distinct
failing return site of the C helpers. -/
inductive SdoError where
  | readFail (idx sub : Nat)
  | unexpectedWidth (idx sub : Nat)
  | emptyAssignment (idx : Nat)
  | emptyMapping (idx : Nat)
deriving DecidableEq, Repr

/-- sdo_u8_any: lenient count read. -/
def sdo_u8_any (dev : Device) (idx sub : Nat) : Except SdoError Nat :=
  match dev idx sub with
  | none => Except.error (SdoError.readFail idx sub)
  | some raw =>
    match decode_u8_any raw with
    | some v => Except.ok v
    | none => Except.error (SdoError.unexpectedWidth idx sub)

/-- sdo_u16_any: lenient 16-bit read. -/
def sdo_u16_any (dev : Device) (idx sub : Nat) : Except SdoError Nat :=
  match dev idx sub with
  | none => Except.error (SdoError.readFail idx sub)
  | some raw =>
    match decode_u16_any raw with
    | some v => Except.ok v
    | none => Except.error (SdoError.unexpectedWidth idx sub)

/-- sdo_u32_exact: strict 4-byte read for mapping words. -/
def sdo_u32_exact (dev : Device) (idx sub : Nat) : Except SdoError Nat :=
  match dev idx sub with
  | none => Except.error (SdoError.readFail idx sub)
  | some raw =>
    match decode_u32_exact raw with
    | some v => Except.ok v
    | none => Except.error (SdoError.unexpectedWidth idx sub)

/-! ## Discovery engine -/

/-- pdo_entry_t: one mapped dictionary entry. -/
structure PdoEntry where
  idx : Nat
  sub : Nat
  bits : Nat
deriving DecidableEq, Repr

/-- pdo_t: one PDO with its ordered mapping entries; entry_count is the
list length. -/
structure Pdo where
  pdo_index : Nat
  entries : List PdoEntry
deriving DecidableEq, Repr

/-- Split of a 32-bit mapping word: index is the low 16 bits, subindex the
next 8, bit length the top 8. -/
def splitMapWord (w : Nat) : PdoEntry :=
  { idx := w % 65536, sub := w / 65536 % 256, bits := w / 16777216 % 256 }

/-- Synthetic 32-bit mapping word for an (index, subindex, bits) triple. -/
def encodeMapWord (idx sub bits : Nat) : Nat :=
  idx % 65536 + 65536 * (sub % 256) + 16777216 * (bits % 256)

/-- The four little-endian bytes of a 32-bit word. -/
def wordBytes (w : Nat) : List Nat :=
  [w % 256, w / 256 % 256, w / 65536 % 256, w / 16777216 % 256]

/-- read_assign_list: subindex 0 is the count (lenient decode); a zero
count is the empty-assignment error; the count is clamped to 16; then
subindices 1 .. count are read as 16-bit PDO indices, in order. -/
def read_assign_list (dev : Device) (assign_idx : Nat) :
    Except SdoError (List Nat) :=
  match sdo_u8_any dev assign_idx 0 with
  | Except.error e => Except.error e
  | Except.ok cnt =>
    if cnt = 0 then Except.error (SdoError.emptyAssignment assign_idx)
    else
      (List.range (if cnt > 16 then 16 else cnt)).mapM
        (fun i => sdo_u16_any dev assign_idx (i + 1))

/-- read_pdo_map: subindex 0 is the entry count (lenient decode); a zero
count is the empty-mapping error; subindices 1 .. count are read as exact
4-byte words and split into mapping entries. -/
def read_pdo_map (dev : Device) (pdo_idx : Nat) : Except SdoError Pdo :=
  match sdo_u8_any dev pdo_idx 0 with
  | Except.error e => Except.error e
  | Except.ok n =>
    if n = 0 then Except.error (SdoError.emptyMapping pdo_idx)
    else
      match (List.range n).mapM
          (fun i => Except.map splitMapWord (sdo_u32_exact dev pdo_idx (i + 1))) with
      | Except.error e => Except.error e
      | Except.ok es => Except.ok { pdo_index := pdo_idx, entries := es }

/-- build_pdo_lists: read the output (0x1C12) and input (0x1C13) assign
lists, then the mapping of every discovered PDO, preserving order. -/
def build_pdo_lists (dev : Device) : Except SdoError (List Pdo × List Pdo) :=
  match read_assign_list dev 0x1C12 with
  | Except.error e => Except.error e
  | Except.ok rxI =>
    match read_assign_list dev 0x1C13 with
    | Except.error e => Except.error e
    | Except.ok txI =>
      match rxI.mapM (read_pdo_map dev) with
      | Except.error e => Except.error e
      | Except.ok rx =>
        match txI.mapM (read_pdo_map dev) with
        | Except.error e => Except.error e
        | Except.ok tx => Except.ok (rx, tx)

/-! ## Layout builder -/

/-- ec_direction_t values used by the builders. -/
inductive EcDir where
  | invalid
  | output
  | input
deriving DecidableEq, Repr

/-- ec_pdo_entry_info_t. -/
structure EcPdoEntryInfo where
  index : Nat
  subindex : Nat
  bit_length : Nat
deriving DecidableEq, Repr

/-- ec_pdo_info_t; n_entries is the list length. -/
structure EcPdoInfo where
  index : Nat
  entries : List EcPdoEntryInfo
deriving DecidableEq, Repr

/-- ec_sync_info_t; n_pdos is the list length. -/
structure EcSyncInfo where
  index : Nat
  dir : EcDir
  pdos : List EcPdoInfo
deriving DecidableEq, Repr

/-- The ec_pdo_info_t built for one discovered PDO. -/
def infoOf (p : Pdo) : EcPdoInfo :=
  { index := p.pdo_index,
    entries := p.entries.map fun e =>
      { index := e.idx, subindex := e.sub, bit_length := e.bits } }

/-- make_infos: one flat info array, rx PDOs first, then tx PDOs. -/
def make_infos (rx tx : List Pdo) : List EcPdoInfo :=
  rx.map infoOf ++ tx.map infoOf

/-- make_syncs: the five sync-manager descriptors; slot 2 points at the
first rx count infos, slot 3 at the remaining tx count infos, slot 4 is
the 0xFF sentinel. -/
def make_syncs (rx tx : List Pdo) : List EcSyncInfo :=
  let infos := make_infos rx tx
  [ { index := 0, dir := EcDir.output, pdos := [] },
    { index := 1, dir := EcDir.input, pdos := [] },
    { index := 2, dir := EcDir.output, pdos := infos.take rx.length },
    { index := 3, dir := EcDir.input, pdos := infos.drop rx.length },
    { index := 0xFF, dir := EcDir.invalid, pdos := [] } ]

/-- ec_pdo_entry_reg_t: the resolved offset of the entry at position k of
the registration list is offs[k], so the offset slot is kept implicit and
offsets live in a parallel list. -/
structure EcPdoEntryReg where
  reg_alias : Nat
  position : Nat
  vendor_id : Nat
  product_code : Nat
  index : Nat
  subindex : Nat
deriving DecidableEq, Repr

/-- The registration record built for one mapping entry. -/
def regOf (e : PdoEntry) : EcPdoEntryReg :=
  { reg_alias := 0, position := 0, vendor_id := 0x0000006c,
    product_code := 0x0000a72c, index := e.idx, subindex := e.sub }

/-- All registration records of one direction, in discovery order. -/
def dirRegs (l : List Pdo) : List EcPdoEntryReg :=
  l.flatMap fun p => p.entries.map regOf

/-- make_regs: flat registration list with the rx (output) entries first,
then the tx (input) entries; the zeroed array terminator of the C code is
an end marker, not a registration, and is not part of the list. -/
def make_regs (rx tx : List Pdo) : List EcPdoEntryReg :=
  dirRegs rx ++ dirRegs tx

/-! ## Offset resolver -/

/-- Total number of output-direction mapping entries. -/
def rx_entries (rx : List Pdo) : Nat :=
  (rx.map fun p => p.entries.length).sum

/-- Input-image base: the resolved offset of the registration entry right
after all output entries, offs[rx_entries]. -/
def sm3_base (rx : List Pdo) (offs : List Nat) : Nat :=
  offs.getD (rx_entries rx) 0

/-- Field value types of the JSON descriptors. -/
inductive FType where
  | u8
  | u16
  | u32
deriving DecidableEq, Repr

/-- Width in bytes of a field type. -/
def FType.width : FType → Nat
  | FType.u8 => 1
  | FType.u16 => 2
  | FType.u32 => 4

/-- The all-ones 32-bit sentinel written into unresolved offset slots. -/
def offSentinel : Nat := 4294967295

/-- field_t of the v3 viewer: logical byte offset within the input image
(an int in C, so possibly negative), type, valid flag and the four
per-byte domain offsets.  The display name plays no role here. -/
structure Field where
  logical_offset : Int
  type : FType
  valid : Bool
  dom_off : List Nat
deriving DecidableEq, Repr

/-- Freshly loaded field: valid is 0 and all four offset slots hold the
sentinel. -/
def initField (off : Int) (ty : FType) : Field :=
  { logical_offset := off, type := ty, valid := false,
    dom_off := List.replicate 4 offSentinel }

/-- Real domain offset of input-image logical byte i: the resolved offset
of registration entry sm2Bytes + i. -/
def sm3_dom_off (sm2Bytes : Nat) (all_offsets : List Nat) (i : Nat) : Nat :=
  all_offsets.getD (sm2Bytes + i) 0

/-- map_fields_to_domain, per field: reject a negative base or a span past
the input image, else resolve every constituent byte and mark valid; the
offset slots beyond the width keep their previous contents. -/
def map_field (sm2Bytes sm3Bytes : Nat) (all_offsets : List Nat) (f : Field) :
    Field :=
  let base := f.logical_offset
  let need := f.type.width
  if base < 0 ∨ base + (need : Int) > (sm3Bytes : Int) then
    { f with valid := false }
  else
    { f with
      valid := true
      dom_off :=
        ((List.range need).map fun k =>
          sm3_dom_off sm2Bytes all_offsets (base.toNat + k))
        ++ f.dom_off.drop need }

/-- map_fields_to_domain over a whole field list. -/
def map_fields_to_domain (sm2Bytes sm3Bytes : Nat) (all_offsets : List Nat)
    (fl : List Field) : List Field :=
  fl.map (map_field sm2Bytes sm3Bytes all_offsets)

/-- Guarded read of one field from the process image: an invalid field is
skipped and reads as none (the caller shows a sentinel line instead of a
value); a valid field is assembled little-endian from its per-byte
offsets. -/
def read_field (dom : Nat → Nat) (f : Field) : Option Nat :=
  if f.valid then
    some (match f.type with
      | FType.u8 => dom (f.dom_off.getD 0 0) % 256
      | FType.u16 =>
        dom (f.dom_off.getD 0 0) % 256 + 256 * (dom (f.dom_off.getD 1 0) % 256)
      | FType.u32 =>
        dom (f.dom_off.getD 0 0) % 256 + 256 * (dom (f.dom_off.getD 1 0) % 256)
          + 65536 * (dom (f.dom_off.getD 2 0) % 256)
          + 16777216 * (dom (f.dom_off.getD 3 0) % 256))
  else none

/-- Image indices the guarded read loop touches for one field. -/
def field_access_offsets (f : Field) : List Nat :=
  if f.valid then (List.range f.type.width).map fun k => f.dom_off.getD k 0
  else []

/-! ## Mailbox request client -/

/-- ec_request_state_t. -/
inductive ReqState where
  | unused
  | busy
  | success
  | failure
deriving DecidableEq, Repr

/-- One SDO request against the runtime: whether creation succeeded, the
completion state observed at each poll, and the payload bytes available on
success. -/
structure SdoRequest where
  created : Bool
  state : Nat → ReqState
  data : List Nat

/-- The fixed poll budget of the read helpers (200 iterations). -/
def pollBudget : Nat := 200

/-- The fixed poll interval of the read helpers (usleep of 1000, 1 ms). -/
def pollIntervalUsec : Nat := 1000

/-- Index of the first poll that observes success, within the budget. -/
def firstSuccessPoll (st : Nat → ReqState) : Option Nat :=
  (List.range pollBudget).find? fun i => st i == ReqState.success

/-- Result of one polled SDO read; rejected models the early return when
the request cannot be created, timeout the return after the loop. -/
inductive SdoReadResult where
  | rejected
  | timeout
  | ok (v : Nat)
deriving DecidableEq, Repr

/-- read_sdo_u8: create, issue, poll up to the budget checking only the
success state, return the first payload byte on success. -/
def read_sdo_u8 (req : SdoRequest) : SdoReadResult :=
  if req.created then
    match firstSuccessPoll req.state with
    | some _ => SdoReadResult.ok (req.data.getD 0 0 % 256)
    | none => SdoReadResult.timeout
  else SdoReadResult.rejected

/-- read_sdo_u32: same loop, assembling four payload bytes little-endian. -/
def read_sdo_u32 (req : SdoRequest) : SdoReadResult :=
  if req.created then
    match firstSuccessPoll req.state with
    | some _ =>
      SdoReadResult.ok (req.data.getD 0 0 % 256
        + 256 * (req.data.getD 1 0 % 256)
        + 65536 * (req.data.getD 2 0 % 256)
        + 16777216 * (req.data.getD 3 0 % 256))
    | none => SdoReadResult.timeout
  else SdoReadResult.rejected

/-- Number of loop iterations the poll loop runs for a given state trace. -/
def pollsUsed (st : Nat → ReqState) : Nat :=
  match firstSuccessPoll st with
  | some i => i + 1
  | none => pollBudget

/-! ## Layout validator -/

/-- Resolved registration result: byte offset and bit offset. -/
structure RegInfo where
  byte : Nat
  bit : Nat
deriving DecidableEq, Repr

/-- One pass of the validation loop of build_domain_and_print_offsets:
i is the position of the current entry, prev the byte offset of the
previous entry (none at position 0).  Returns the failure count.  Note the
inner check of the C code: a jump from the previous offset only counts as
a failure when the byte offset also differs from the position itself. -/
def validatePass : Nat → Option Nat → List RegInfo → Nat
  | _, _, [] => 0
  | i, prev, r :: rest =>
    (if r.bit ≠ 0 then 1 else 0)
      + (match prev with
        | none => if r.byte ≠ 0 then 1 else 0
        | some pb =>
          if ¬(r.byte = pb + 1 ∨ r.byte = pb) ∧ r.byte ≠ i then 1 else 0)
      + validatePass (i + 1) (some r.byte) rest

/-- Full validation: the per-entry loop plus the final check that the
domain size equals the number of registered entries. -/
def validateFailures (infos : List RegInfo) (domainSize : Nat) : Nat :=
  validatePass 0 none infos + (if domainSize ≠ infos.length then 1 else 0)

/-- Strict adjacent-offset chain as the spec words it: each byte offset
equals the previous one or that value plus one. -/
def specChainOk : Nat → List RegInfo → Bool
  | _, [] => true
  | pb, r :: rest => (r.byte == pb + 1 || r.byte == pb) && specChainOk r.byte rest

/-- First-entry and chain conditions, spec version. -/
def specOffsetsOk : List RegInfo → Bool
  | [] => true
  | r :: rest => r.byte == 0 && specChainOk r.byte rest

/-- Layout acceptance following the words of the claim: all bit offsets
zero, first byte offset zero, strict adjacent chain, and domain size equal
to the entry count. -/
def specLayoutOk (infos : List RegInfo) (domainSize : Nat) : Bool :=
  infos.all (fun r => r.bit == 0) && specOffsetsOk infos
    && domainSize == infos.length

/-- Adjacent-offset chain as the code actually checks it: each byte offset
equals the previous one, that value plus one, or the position itself. -/
def codeChainOk : Nat → Nat → List RegInfo → Bool
  | _, _, [] => true
  | i, pb, r :: rest =>
    (r.byte == pb + 1 || r.byte == pb || r.byte == i) && codeChainOk (i + 1) r.byte rest

/-- First-entry and chain conditions, code version. -/
def amendedOffsetsOk : List RegInfo → Bool
  | [] => true
  | r :: rest => r.byte == 0 && codeChainOk 1 r.byte rest

/-- Layout acceptance matching the code: like specLayoutOk but with the
relaxed chain condition. -/
def amendedLayoutOk (infos : List RegInfo) (domainSize : Nat) : Bool :=
  infos.all (fun r => r.bit == 0) && amendedOffsetsOk infos
    && domainSize == infos.length

/-- The gap-free all-8-bit layout: entry k resolved at byte offset k with
bit offset 0. -/
def packedInfos (n : Nat) : List RegInfo :=
  (List.range n).map fun i => { byte := i, bit := 0 }

/-! ## Concrete scenario devices -/

/-- Scenario A slave: one output PDO 0x1600 with 2 eight-bit entries and
one input PDO 0x1A00 with 3 eight-bit entries. -/
def devA : Device := fun idx sub =>
  if idx = 0x1C12 then
    (if sub = 0 then some [1]
     else if sub = 1 then some [0x00, 0x16] else none)
  else if idx = 0x1C13 then
    (if sub = 0 then some [1]
     else if sub = 1 then some [0x00, 0x1A] else none)
  else if idx = 0x1600 then
    (if sub = 0 then some [2]
     else if sub ≤ 2 then some (wordBytes (encodeMapWord 0x7000 sub 8)) else none)
  else if idx = 0x1A00 then
    (if sub = 0 then some [3]
     else if sub ≤ 3 then some (wordBytes (encodeMapWord 0x6000 sub 8)) else none)
  else none

/-- The PDO lists scenario A discovery must produce. -/
def rxA : List Pdo :=
  [{ pdo_index := 0x1600, entries := [⟨0x7000, 1, 8⟩, ⟨0x7000, 2, 8⟩] }]

def txA : List Pdo :=
  [{ pdo_index := 0x1A00,
     entries := [⟨0x6000, 1, 8⟩, ⟨0x6000, 2, 8⟩, ⟨0x6000, 3, 8⟩] }]

/-- Scenario D slave: the output assignment object reports a count of 40
and answers every subindex up to 16 with a 16-bit PDO index. -/
def devD : Device := fun idx sub =>
  if idx = 0x1C12 then
    (if sub = 0 then some [40]
     else if sub ≤ 16 then some [sub, 0] else none)
  else none

/-- Demonstration request that completes successfully at poll 3. -/
def reqOkDemo : SdoRequest :=
  { created := true,
    state := fun i => if i = 3 then ReqState.success else ReqState.busy,
    data := [7] }

/-- Demonstration request the runtime reports as failed at every poll. -/
def reqFailDemo : SdoRequest :=
  { created := true, state := fun _ => ReqState.failure, data := [] }

/-- Demonstration request that never completes. -/
def reqPendingDemo : SdoRequest :=
  { created := true, state := fun _ => ReqState.busy, data := [] }

/-! ## Helper lemmas -/

theorem dirRegs_length (l : List Pdo) : (dirRegs l).length = rx_entries l := by
  induction l with
  | nil => rfl
  | cons p t ih =>
    simp only [dirRegs, List.flatMap_cons, List.length_append, List.length_map,
      rx_entries, List.map_cons, List.sum_cons] at ih ⊢
    omega

theorem map_field_valid_iff (sm2Bytes sm3Bytes : Nat) (all_offsets : List Nat)
    (f : Field) :
    (map_field sm2Bytes sm3Bytes all_offsets f).valid = true ↔
      (0 ≤ f.logical_offset ∧
        f.logical_offset + (f.type.width : Int) ≤ (sm3Bytes : Int)) := by
  by_cases h : f.logical_offset < 0 ∨
      f.logical_offset + (f.type.width : Int) > (sm3Bytes : Int)
  · simp only [map_field, if_pos h]
    constructor
    · intro hc; cases hc
    · intro hc; omega
  · simp only [map_field, if_neg h]
    constructor
    · intro _; omega
    · intro _; trivial

theorem map_field_dom_off (sm2Bytes sm3Bytes : Nat) (all_offsets : List Nat)
    (f : Field) (k : Nat) (hk : k < f.type.width)
    (hv : (map_field sm2Bytes sm3Bytes all_offsets f).valid = true) :
    (map_field sm2Bytes sm3Bytes all_offsets f).dom_off.getD k 0 =
      sm3_dom_off sm2Bytes all_offsets (f.logical_offset.toNat + k) := by
  by_cases h : f.logical_offset < 0 ∨
      f.logical_offset + (f.type.width : Int) > (sm3Bytes : Int)
  · simp only [map_field, if_pos h] at hv
    exact absurd hv (by decide)
  · simp only [map_field, if_neg h]
    rw [List.getD_append _ _ _ _ (by simpa using hk)]
    rw [List.getD_eq_getElem?_getD, List.getElem?_map, List.getElem?_range hk]
    rfl

theorem validatePass_some_eq_zero (l : List RegInfo) : ∀ i pb,
    validatePass i (some pb) l = 0 ↔
      (l.all (fun r => r.bit == 0) = true ∧ codeChainOk i pb l = true) := by
  induction l with
  | nil => intro i pb; simp [validatePass, codeChainOk]
  | cons r rest ih =>
    intro i pb
    by_cases hbit : r.bit = 0 <;>
      by_cases h1 : r.byte = pb + 1 <;>
        by_cases h2 : r.byte = pb <;>
          by_cases h3 : r.byte = i <;>
            simp [validatePass, codeChainOk, hbit, h1, h2, h3, ih,
              Nat.add_eq_zero]

theorem validateFailures_zero_iff (infos : List RegInfo) (ds : Nat) :
    validateFailures infos ds = 0 ↔ amendedLayoutOk infos ds = true := by
  cases infos with
  | nil =>
    by_cases h : ds = 0 <;>
      simp [validateFailures, validatePass, amendedLayoutOk,
        amendedOffsetsOk, h]
  | cons r rest =>
    by_cases hbit : r.bit = 0 <;>
      by_cases hbyte : r.byte = 0 <;>
        by_cases hds : ds = (r :: rest).length <;>
          simp [validateFailures, validatePass, amendedLayoutOk,
            amendedOffsetsOk, hbit, hbyte, hds, validatePass_some_eq_zero,
            Nat.add_eq_zero]

theorem codeChainOk_range' (m : Nat) : ∀ s,
    codeChainOk (s + 1) s
      ((List.range' (s + 1) m).map fun i => ({ byte := i, bit := 0 } : RegInfo))
      = true := by
  induction m with
  | zero => intro s; rfl
  | succ m ih =>
    intro s
    show codeChainOk (s + 1) s (({ byte := s + 1, bit := 0 } : RegInfo) ::
      ((List.range' (s + 2) m).map fun i => ({ byte := i, bit := 0 } : RegInfo)))
      = true
    simp only [codeChainOk, beq_self_eq_true, Bool.true_or, Bool.true_and]
    exact ih (s + 1)

theorem amendedLayoutOk_packed (n : Nat) :
    amendedLayoutOk (packedInfos n) n = true := by
  cases n with
  | zero => rfl
  | succ m =>
    unfold amendedLayoutOk packedInfos
    rw [List.range_eq_range']
    have hr : List.range' 0 (m + 1) = 0 :: List.range' 1 m := rfl
    rw [hr]
    simp only [List.map_cons, amendedOffsetsOk, List.all_cons,
      beq_self_eq_true, Bool.true_and, List.all_map, Bool.and_eq_true,
      List.all_eq_true]
    refine ⟨⟨?_, ?_⟩, ?_⟩
    · intro x hx
      rcases List.mem_map.mp hx with ⟨i, _, rfl⟩
      rfl
    · exact codeChainOk_range' m 0
    · simp

theorem map_field_type (sm2Bytes sm3Bytes : Nat) (all_offsets : List Nat)
    (f : Field) :
    (map_field sm2Bytes sm3Bytes all_offsets f).type = f.type := by
  by_cases h : f.logical_offset < 0 ∨
      f.logical_offset + (f.type.width : Int) > (sm3Bytes : Int)
  · simp only [map_field, if_pos h]
  · simp only [map_field, if_neg h]

/-! ## Claim theorems -/

/-- Claim C1: the offset resolver computes the input base as the resolved
byte offset of the registration entry whose index equals the total number
of output-direction entries; for the scenario A slave (one output PDO with
2 eight-bit entries, one input PDO with 3 eight-bit entries, packed
offsets) discovery yields exactly those lists, the input base is 2, and a
field at logical offset 0 of width 1 resolves to real offset 2. -/
theorem c1_offset_resolver_input_base (rx : List Pdo) (offs : List Nat) :
    sm3_base rx offs = offs.getD (dirRegs rx).length 0
    ∧ build_pdo_lists devA = Except.ok (rxA, txA)
    ∧ sm3_base rxA [0, 1, 2, 3, 4] = 2
    ∧ (map_field (rx_entries rxA) 3 [0, 1, 2, 3, 4]
        (initField 0 FType.u8)).valid = true
    ∧ (map_field (rx_entries rxA) 3 [0, 1, 2, 3, 4]
        (initField 0 FType.u8)).dom_off.getD 0 0 = 2 := by
  refine ⟨?_, by decide, by decide, by decide, by decide⟩
  simp [sm3_base, dirRegs_length]

/-- Claim C1 witness: the general input-base equation evaluated on the
scenario A layout. -/
theorem c1_offset_resolver_input_base_witness :
    sm3_base rxA [0, 1, 2, 3, 4] =
      [0, 1, 2, 3, 4].getD (dirRegs rxA).length 0 :=
  (c1_offset_resolver_input_base rxA [0, 1, 2, 3, 4]).1

/-- Claim C2: the layout builder emits two zero-PDO mailbox managers, then
one output data manager carrying the output PDOs in discovery order, one
input data manager carrying the input PDOs in discovery order, and the
0xFF sentinel; the flat registration list has every output entry before
every input entry, preserving the per-direction order of the (index,
subindex) pairs. -/
theorem c2_layout_builder (rx tx : List Pdo) :
    make_syncs rx tx =
      [ { index := 0, dir := EcDir.output, pdos := [] },
        { index := 1, dir := EcDir.input, pdos := [] },
        { index := 2, dir := EcDir.output, pdos := rx.map infoOf },
        { index := 3, dir := EcDir.input, pdos := tx.map infoOf },
        { index := 0xFF, dir := EcDir.invalid, pdos := [] } ]
    ∧ make_regs rx tx = dirRegs rx ++ dirRegs tx
    ∧ (make_regs rx tx).map (fun r => (r.index, r.subindex)) =
        (rx.flatMap fun p => p.entries.map fun e => (e.idx, e.sub))
          ++ (tx.flatMap fun p => p.entries.map fun e => (e.idx, e.sub)) := by
  refine ⟨?_, rfl, ?_⟩
  · have h1 : ((rx.map infoOf ++ tx.map infoOf).take rx.length)
        = rx.map infoOf := by
      rw [← List.length_map rx infoOf]
      exact List.take_left _ _
    have h2 : ((rx.map infoOf ++ tx.map infoOf).drop rx.length)
        = tx.map infoOf := by
      rw [← List.length_map rx infoOf]
      exact List.drop_left _ _
    simp only [make_syncs, make_infos]
    rw [h1, h2]
  · have hc : ((fun r : EcPdoEntryReg => (r.index, r.subindex)) ∘ regOf) =
        fun e : PdoEntry => (e.idx, e.sub) := funext fun e => rfl
    simp [make_regs, dirRegs, List.map_append, List.map_flatMap,
      List.map_map, hc]

/-- Claim C2 witness: the builder outputs evaluated on the scenario A
lists. -/
theorem c2_layout_builder_witness :
    make_syncs rxA txA =
      [ { index := 0, dir := EcDir.output, pdos := [] },
        { index := 1, dir := EcDir.input, pdos := [] },
        { index := 2, dir := EcDir.output, pdos := rxA.map infoOf },
        { index := 3, dir := EcDir.input, pdos := txA.map infoOf },
        { index := 0xFF, dir := EcDir.invalid, pdos := [] } ] :=
  (c2_layout_builder rxA txA).1

/-- Claim C3 counterexample: the layout with byte offsets 0, 0, 2 (all bit
offsets 0, domain size 3) violates the strict adjacent-offset condition of
the claim, yet the validation loop reports zero failures, because the code
only counts a jump when the byte offset also differs from the entry
position. -/
theorem c3_layout_validator_counterexample :
    validateFailures [⟨0, 0⟩, ⟨0, 0⟩, ⟨2, 0⟩] 3 = 0
    ∧ specLayoutOk [⟨0, 0⟩, ⟨0, 0⟩, ⟨2, 0⟩] 3 = false := by decide

/-- Claim C3 (amended): the validator reports no violation exactly when
all bit offsets are 0, the first byte offset is 0, every later byte offset
equals the previous offset, the previous offset plus one, or the entry
position itself, and the domain size equals the entry count; consequently
the packed all-8-bit output-then-input layout validates clean. -/
theorem c3_layout_validator_amended (infos : List RegInfo) (ds : Nat) :
    (validateFailures infos ds = 0 ↔ amendedLayoutOk infos ds = true)
    ∧ (∀ n, validateFailures (packedInfos n) n = 0) :=
  ⟨validateFailures_zero_iff infos ds,
   fun n => (validateFailures_zero_iff (packedInfos n) n).mpr
     (amendedLayoutOk_packed n)⟩

/-- Claim C3 witness: the packed-layout conjunct evaluated at five
entries. -/
theorem c3_layout_validator_amended_witness :
    validateFailures (packedInfos 5) 5 = 0 :=
  (c3_layout_validator_amended [] 0).2 5

/-- Claim C4 counterexample: a field with logical offset -1 and width 1
satisfies the stated bound (offset plus width at most the 3 input entries)
yet the resolver marks it invalid, because the code also rejects negative
offsets. -/
theorem c4_resolve_fields_counterexample :
    ((-1 : Int) + ((FType.u8).width : Int) ≤ (3 : Int))
    ∧ (map_field 2 3 [0, 1, 2, 3, 4] (initField (-1) FType.u8)).valid
        = false := by decide

/-- Claim C4 (amended): a field is marked valid exactly when its logical
offset is non-negative and offset plus width is at most the input entry
count; each byte k of a valid field resolves to the input entry at
position offset plus k; an invalid field reads as the sentinel (none)
without aborting; in particular offset 2, width 4 against 3 input entries
is invalid and reads as the sentinel. -/
theorem c4_resolve_fields_amended (sm2Bytes sm3Bytes : Nat)
    (all_offsets : List Nat) (f : Field) (dom : Nat → Nat) :
    ((map_field sm2Bytes sm3Bytes all_offsets f).valid = true ↔
      (0 ≤ f.logical_offset ∧
        f.logical_offset + (f.type.width : Int) ≤ (sm3Bytes : Int)))
    ∧ ((map_field sm2Bytes sm3Bytes all_offsets f).valid = true →
        ∀ k, k < f.type.width →
          (map_field sm2Bytes sm3Bytes all_offsets f).dom_off.getD k 0 =
            sm3_dom_off sm2Bytes all_offsets (f.logical_offset.toNat + k))
    ∧ ((map_field sm2Bytes sm3Bytes all_offsets f).valid = false →
        read_field dom (map_field sm2Bytes sm3Bytes all_offsets f) = none)
    ∧ (map_field 0 3 [0, 1, 2] (initField 2 FType.u32)).valid = false
    ∧ read_field dom (map_field 0 3 [0, 1, 2] (initField 2 FType.u32))
        = none := by
  refine ⟨map_field_valid_iff _ _ _ _, ?_, ?_, by decide, ?_⟩
  · intro hv k hk
    exact map_field_dom_off _ _ _ _ k hk hv
  · intro hv
    simp [read_field, hv]
  · have h : (map_field 0 3 [0, 1, 2] (initField 2 FType.u32)).valid
        = false := by decide
    simp [read_field, h]

/-- Claim C4 witness: the per-byte resolution conjunct evaluated on the
scenario A layout for the width-1 field at logical offset 0. -/
theorem c4_resolve_fields_amended_witness :
    (map_field 2 3 [0, 1, 2, 3, 4] (initField 0 FType.u8)).dom_off.getD 0 0 =
      sm3_dom_off 2 [0, 1, 2, 3, 4] ((0 : Int).toNat + 0) :=
  (c4_resolve_fields_amended 2 3 [0, 1, 2, 3, 4] (initField 0 FType.u8)
    (fun _ => 0)).2.1 (by decide) 0 (by decide)

/-- Claim C5: read_assign_list reads subindex 0 as a leniently decoded
count, fails with the empty-assignment error when it is 0, clamps it to at
most 16, and reads subindices 1 through the clamped count in order as
16-bit PDO indices; on the scenario D device reporting a count of 40, the
count is clamped to 16 and the read succeeds, returning the 16 indices. -/
theorem c5_read_assign_list (dev : Device) (aidx cnt : Nat)
    (h : sdo_u8_any dev aidx 0 = Except.ok cnt) :
    (cnt = 0 →
      read_assign_list dev aidx
        = Except.error (SdoError.emptyAssignment aidx))
    ∧ (cnt ≠ 0 →
        read_assign_list dev aidx =
          (List.range (min cnt 16)).mapM fun i => sdo_u16_any dev aidx (i + 1))
    ∧ read_assign_list devD 0x1C12 =
        Except.ok ((List.range 16).map fun i => i + 1) := by
  refine ⟨?_, ?_, by decide⟩
  · intro h0
    simp [read_assign_list, h, h0]
  · intro h0
    have hmin : (if cnt > 16 then 16 else cnt) = min cnt 16 := by
      rw [Nat.min_def]
      split <;> split <;> omega
    simp [read_assign_list, h, h0, hmin]

/-- Claim C5 witness: the clamp conjunct evaluated on the scenario D
device with count 40. -/
theorem c5_read_assign_list_witness :
    read_assign_list devD 0x1C12 =
      (List.range (min 40 16)).mapM fun i => sdo_u16_any devD 0x1C12 (i + 1) :=
  (c5_read_assign_list devD 0x1C12 40 (by decide)).2.1 (by decide)

/-- Claim C6: read_pdo_map reads subindex 0 as a leniently decoded entry
count and fails with the empty-mapping error when it is 0; each mapping
subindex must arrive as exactly 4 raw bytes (any other width is the
unexpected-width error) and the decoded word splits into index (low 16
bits), subindex (next 8) and bit length (top 8); encoding the triple
(0x6010, 3, 8) as a little-endian 4-byte word and decoding it through the
strict path reproduces exactly that triple. -/
theorem c6_read_mapping (dev : Device) (pdo_idx sub : Nat) (raw : List Nat)
    (hraw : dev pdo_idx sub = some raw) :
    (sdo_u8_any dev pdo_idx 0 = Except.ok 0 →
      read_pdo_map dev pdo_idx = Except.error (SdoError.emptyMapping pdo_idx))
    ∧ (raw.length = 4 →
        sdo_u32_exact dev pdo_idx sub = Except.ok (leVal raw))
    ∧ (raw.length ≠ 4 →
        sdo_u32_exact dev pdo_idx sub =
          Except.error (SdoError.unexpectedWidth pdo_idx sub))
    ∧ (∀ i s b, i < 65536 → s < 256 → b < 256 →
        splitMapWord (encodeMapWord i s b) = ⟨i, s, b⟩)
    ∧ decode_u32_exact (wordBytes (encodeMapWord 0x6010 3 8)) =
        some (encodeMapWord 0x6010 3 8)
    ∧ splitMapWord (encodeMapWord 0x6010 3 8) = ⟨0x6010, 3, 8⟩ := by
  refine ⟨?_, ?_, ?_, ?_, by decide, by decide⟩
  · intro h0
    simp [read_pdo_map, h0]
  · intro h4
    rcases raw with _ | ⟨a, _ | ⟨b, _ | ⟨c, _ | ⟨d, _ | ⟨e, t⟩⟩⟩⟩⟩ <;>
      simp_all [sdo_u32_exact, decode_u32_exact, leVal]
    ring
  · intro h4
    simp [sdo_u32_exact, hraw, decode_u32_exact, h4]
  · intro i s b hi hs hb
    simp only [splitMapWord, encodeMapWord, PdoEntry.mk.injEq]
    refine ⟨?_, ?_, ?_⟩ <;> omega

/-- Claim C6 witness: the strict 4-byte decode conjunct evaluated on a
mapping word of the scenario A device. -/
theorem c6_read_mapping_witness :
    sdo_u32_exact devA 0x1600 1 =
      Except.ok (leVal (wordBytes (encodeMapWord 0x7000 1 8))) :=
  (c6_read_mapping devA 0x1600 1 (wordBytes (encodeMapWord 0x7000 1 8))
    (by decide)).2.1 (by decide)

/-- Claim C7 counterexample: the 8-bit count decoder rejects a raw length
of 8 and the 16-bit decoder rejects a raw length of 1, although the claim
says every count-field decode accepts raw lengths 1, 2, 4 and 8. -/
theorem c7_decoder_counterexample :
    List.length ([0, 0, 0, 0, 0, 0, 0, 0] : List Nat) = 8
    ∧ decode_u8_any [0, 0, 0, 0, 0, 0, 0, 0] = none
    ∧ List.length ([7] : List Nat) = 1
    ∧ decode_u16_any [7] = none := by decide

/-- Claim C7 (amended): the 8-bit count decoder accepts exactly the raw
lengths 1, 2 and 4 and returns the first byte; the 16-bit decoder accepts
exactly the raw lengths 2, 4 and 8 and returns the two low bytes
little-endian; every other raw length is rejected. -/
theorem c7_decoder_amended (raw : List Nat) (v : Nat) :
    (decode_u8_any raw = some v ↔
      ((raw.length = 1 ∨ raw.length = 2 ∨ raw.length = 4)
        ∧ v = raw.getD 0 0 % 256))
    ∧ (decode_u16_any raw = some v ↔
      ((raw.length = 2 ∨ raw.length = 4 ∨ raw.length = 8)
        ∧ v = leVal (raw.take 2))) := by
  constructor
  · unfold decode_u8_any
    split_ifs with h1 h2 h3 <;> simp_all [eq_comm]
  · by_cases h : raw.length = 2 ∨ raw.length = 4 ∨ raw.length = 8
    · rcases raw with _ | ⟨a, _ | ⟨b, t⟩⟩
      · simp at h
      · simp at h
      · unfold decode_u16_any
        rw [if_pos h]
        have hl : leVal (List.take 2 (a :: b :: t)) = a % 256 + 256 * (b % 256) := by
          simp [leVal]
        constructor
        · intro hsome
          have hv : a % 256 + 256 * (b % 256) = v := by simpa using hsome
          exact ⟨h, by rw [hl, ← hv]⟩
        · rintro ⟨_, hv⟩
          rw [hv, hl]
          rfl
    · unfold decode_u16_any
      rw [if_neg h]
      simp [h]

/-- Claim C7 witness: the amended 16-bit acceptance evaluated on the two
little-endian bytes of 0x6010. -/
theorem c7_decoder_amended_witness :
    decode_u16_any [0x10, 0x60] = some 0x6010 :=
  ((c7_decoder_amended [0x10, 0x60] 0x6010).2).mpr (by decide)

/-- Claim C8: every mailbox read polls at a fixed 1 ms interval for at
most 200 iterations, so the loop always terminates; success within the
budget returns the payload, a trace with no success within the budget
returns the timeout result, and a request that cannot be created returns
the rejected result. -/
theorem c8_mailbox_poll_budget (req : SdoRequest) :
    pollBudget = 200 ∧ pollIntervalUsec = 1000
    ∧ pollsUsed req.state ≤ pollBudget
    ∧ (req.created = false →
        read_sdo_u8 req = SdoReadResult.rejected
        ∧ read_sdo_u32 req = SdoReadResult.rejected)
    ∧ (req.created = true →
        ((∃ i, i < pollBudget ∧ req.state i = ReqState.success) →
          read_sdo_u8 req = SdoReadResult.ok (req.data.getD 0 0 % 256)
          ∧ read_sdo_u32 req = SdoReadResult.ok (req.data.getD 0 0 % 256
              + 256 * (req.data.getD 1 0 % 256)
              + 65536 * (req.data.getD 2 0 % 256)
              + 16777216 * (req.data.getD 3 0 % 256)))
        ∧ ((∀ i, i < pollBudget → req.state i ≠ ReqState.success) →
          read_sdo_u8 req = SdoReadResult.timeout
          ∧ read_sdo_u32 req = SdoReadResult.timeout)) := by
  refine ⟨rfl, rfl, ?_, ?_, ?_⟩
  · unfold pollsUsed
    cases hf : firstSuccessPoll req.state with
    | none => simp
    | some i =>
      have hm : i ∈ List.range pollBudget := List.mem_of_find?_eq_some hf
      have hi : i < pollBudget := List.mem_range.mp hm
      show i + 1 ≤ pollBudget
      omega
  · intro hc
    simp [read_sdo_u8, read_sdo_u32, hc]
  · intro hc
    constructor
    · rintro ⟨i, hi, hsucc⟩
      have hsome : (firstSuccessPoll req.state).isSome := by
        rw [firstSuccessPoll, List.find?_isSome]
        exact ⟨i, List.mem_range.mpr hi, by simp [hsucc]⟩
      cases hs : firstSuccessPoll req.state with
      | none => rw [hs] at hsome; simp at hsome
      | some j =>
        exact ⟨by simp [read_sdo_u8, hc, hs], by simp [read_sdo_u32, hc, hs]⟩
    · intro hnone
      have hn : firstSuccessPoll req.state = none := by
        rw [firstSuccessPoll, List.find?_eq_none]
        intro x hx
        simp only [beq_iff_eq]
        exact hnone x (List.mem_range.mp hx)
      simp [read_sdo_u8, read_sdo_u32, hc, hn]

/-- Claim C8 witness: the success branch of both reads evaluated on a
request completing at poll 3. -/
theorem c8_mailbox_poll_budget_witness :
    read_sdo_u8 reqOkDemo = SdoReadResult.ok (reqOkDemo.data.getD 0 0 % 256)
    ∧ read_sdo_u32 reqOkDemo = SdoReadResult.ok (reqOkDemo.data.getD 0 0 % 256
        + 256 * (reqOkDemo.data.getD 1 0 % 256)
        + 65536 * (reqOkDemo.data.getD 2 0 % 256)
        + 16777216 * (reqOkDemo.data.getD 3 0 % 256)) :=
  ((c8_mailbox_poll_budget reqOkDemo).2.2.2.2 rfl).1 ⟨3, by decide, by decide⟩

/-- Claim C9: the poll loop inspects only the success state, so a request
the runtime reports as failed at every poll is not detected early: it
consumes the entire 200-iteration budget and returns the same timeout
result as a request that never completes, indistinguishable to the
caller. -/
theorem c9_poll_ignores_failure (req : SdoRequest) (hc : req.created = true)
    (hf : ∀ i, i < pollBudget → req.state i = ReqState.failure) :
    read_sdo_u8 req = SdoReadResult.timeout
    ∧ read_sdo_u32 req = SdoReadResult.timeout
    ∧ pollsUsed req.state = pollBudget
    ∧ read_sdo_u8 req = read_sdo_u8 reqPendingDemo := by
  have hn : firstSuccessPoll req.state = none := by
    rw [firstSuccessPoll, List.find?_eq_none]
    intro x hx
    simp only [beq_iff_eq]
    rw [hf x (List.mem_range.mp hx)]
    decide
  have hnp : firstSuccessPoll (fun _ => ReqState.busy) = none := by
    rw [firstSuccessPoll, List.find?_eq_none]
    intro x _
    exact (by decide : ¬(ReqState.busy == ReqState.success) = true)
  refine ⟨?_, ?_, ?_, ?_⟩
  · simp [read_sdo_u8, hc, hn]
  · simp [read_sdo_u32, hc, hn]
  · simp [pollsUsed, hn]
  · simp [read_sdo_u8, hc, hn, reqPendingDemo, hnp]

/-- Claim C9 witness: the failure trace request evaluated concretely. -/
theorem c9_poll_ignores_failure_witness :
    read_sdo_u8 reqFailDemo = SdoReadResult.timeout
    ∧ read_sdo_u32 reqFailDemo = SdoReadResult.timeout
    ∧ pollsUsed reqFailDemo.state = pollBudget
    ∧ read_sdo_u8 reqFailDemo = read_sdo_u8 reqPendingDemo :=
  c9_poll_ignores_failure reqFailDemo rfl (fun _ _ => rfl)

/-- Claim C10: every field starts invalid with all offset slots holding
the all-ones sentinel; resolution marks a field valid only when its
logical offset is non-negative and offset plus width fits the input image;
the read loop skips invalid fields and touches no image index for them;
and every image index touched for a resolved field comes from the
registration offsets, never from the initialization sentinel. -/
theorem c10_sentinel_never_indexed (off : Int) (ty : FType)
    (sm2Bytes sm3Bytes : Nat) (all_offsets : List Nat) (f : Field)
    (dom : Nat → Nat) :
    (initField off ty).valid = false
    ∧ (initField off ty).dom_off = List.replicate 4 offSentinel
    ∧ ((map_field sm2Bytes sm3Bytes all_offsets f).valid = true ↔
        (0 ≤ f.logical_offset ∧
          f.logical_offset + (f.type.width : Int) ≤ (sm3Bytes : Int)))
    ∧ (f.valid = false →
        read_field dom f = none ∧ field_access_offsets f = [])
    ∧ (∀ o ∈ field_access_offsets (map_field sm2Bytes sm3Bytes all_offsets f),
        ∃ k, k < f.type.width
          ∧ o = sm3_dom_off sm2Bytes all_offsets (f.logical_offset.toNat + k)) := by
  refine ⟨rfl, rfl, map_field_valid_iff _ _ _ _, ?_, ?_⟩
  · intro hv
    exact ⟨by simp [read_field, hv], by simp [field_access_offsets, hv]⟩
  · intro o ho
    by_cases hv : (map_field sm2Bytes sm3Bytes all_offsets f).valid = true
    · unfold field_access_offsets at ho
      rw [if_pos hv] at ho
      rcases List.mem_map.mp ho with ⟨k, hk, rfl⟩
      have hkw : k < f.type.width := by
        have hkr := List.mem_range.mp hk
        rwa [map_field_type] at hkr
      exact ⟨k, hkw, map_field_dom_off _ _ _ _ k hkw hv⟩
    · unfold field_access_offsets at ho
      rw [if_neg hv] at ho
      simp at ho

/-- Claim C10 witness: the invalid-field conjunct evaluated on a freshly
initialized field. -/
theorem c10_sentinel_never_indexed_witness :
    read_field (fun _ => 0) (initField 5 FType.u8) = none
    ∧ field_access_offsets (initField 5 FType.u8) = [] :=
  (c10_sentinel_never_indexed 5 FType.u8 0 3 [0, 1, 2] (initField 5 FType.u8)
    (fun _ => 0)).2.2.2.1 rfl

end ECat
